import Mathlib

/-!
Verification development for the batch image-generation queue engine
(src/js/queue.js, with collaborators in src/js/history.js and the UI layer
in src/js/queueUI.js).  The JavaScript source is shallowly embedded below:
the mutable module-level queueState becomes an explicit QueueState value
threaded through pure functions, in-place mutation of a found item becomes
replacement of that item at its list position, and the asynchronous
collaborators (generation backend, filesystem, IndexedDB ref store) become
explicit parameters or oracle functions.
-/

namespace QueueEngine

/-- Job lifecycle statuses, from the QueueStatus constant table in queue.js. -/
inductive QueueStatus where
  | pending
  | generating
  | completed
  | failed
  | cancelled
  deriving DecidableEq, Repr

/-- One reference image attached to a job: an id plus the (compressed) data
URL.  Mirrors the objects stored in item.refImages. -/
structure RefImage where
  rid : Nat
  data : String
  deriving DecidableEq, Repr

/-- Generation configuration snapshots are plain JS objects whose exact
fields the queue never inspects; we model them as association lists from
field name to field value so that the object-spread merge used by the
config-override path is expressible. -/
abbrev Config : Type := List (String × String)

/-- JS object spread for two configs: keys of the base keep their order but
take the overriding value when present, and new keys of the override are
appended.  Models the merge semantics of assigning the given fields into an
existing config object. -/
def mergeConfig (base ov : Config) : Config :=
  (base.map (fun kv =>
    match ov.find? (fun kv2 => decide (kv2.1 = kv.1)) with
    | some kv2 => (kv.1, kv2.2)
    | none => kv))
  ++ ov.filter (fun kv2 => !(base.any (fun kv => decide (kv.1 = kv2.1))))

/-- A queue item as created by addToQueue in queue.js.  String ids of the
form qi_timestamp_random are modelled as natural numbers; the prompt group
id pg_timestamp_index is modelled by the prompt index within its batch. -/
structure QueueItem where
  id : Nat
  prompt : String
  variationIndex : Nat
  totalVariations : Nat
  promptGroupId : Nat
  status : QueueStatus
  createdAt : Nat
  startedAt : Option Nat
  completedAt : Option Nat
  error : Option String
  filename : Option String
  config : Config
  refImages : List RefImage
  batchName : String
  deriving DecidableEq, Repr

/-- The module-level queueState object of queue.js. -/
structure QueueState where
  items : List QueueItem
  isRunning : Bool
  isPaused : Bool
  delayBetweenMs : Nat
  completedCount : Nat
  failedCount : Nat
  startedAt : Option Nat
  generationTimes : List Nat
  deriving DecidableEq, Repr

/-- Configuration constant MAX_QUEUE_ITEMS from config.js (documented as 100
in the repository README). -/
def MAX_QUEUE_ITEMS : Nat := 100

/-- Configuration constant DEFAULT_QUEUE_DELAY_MS from config.js (documented
as 3000 in the repository README). -/
def DEFAULT_QUEUE_DELAY_MS : Nat := 3000

/-- Cap applied to the shared backoff delay in the rate-limit branch of
processQueue (60000 ms, written literally in queue.js). -/
def RATE_LIMIT_DELAY_CAP : Nat := 60000

/-! ### String helpers modelling the JavaScript string primitives used by
queue.js (trim, toLowerCase, includes).  They are written by structural
recursion over the character list so that concrete instances evaluate. -/

/-- Whitespace test used by the model of String.prototype.trim. -/
def isWsChar (c : Char) : Bool :=
  c = ' ' || c = '\t' || c = '\n' || c = '\r'

/-- Model of JavaScript String.prototype.trim. -/
def strTrim (s : String) : String :=
  ⟨(((s.data.dropWhile isWsChar).reverse.dropWhile isWsChar).reverse)⟩

/-- ASCII lower-casing of one character, modelling what toLowerCase does on
the ASCII error messages the queue inspects. -/
def charLowerAscii (c : Char) : Char :=
  if 'A' ≤ c ∧ c ≤ 'Z' then Char.ofNat (c.toNat + 32) else c

/-- Model of JavaScript String.prototype.toLowerCase for ASCII content. -/
def strLower (s : String) : String :=
  ⟨s.data.map charLowerAscii⟩

/-- Character-list prefix test, auxiliary to the includes model. -/
def charsLeadWith : List Char → List Char → Bool
  | [], _ => true
  | _ :: _, [] => false
  | p :: ps, c :: cs => p = c && charsLeadWith ps cs

/-- Character-list substring test, auxiliary to the includes model. -/
def charsInclude (pat : List Char) : List Char → Bool
  | [] => charsLeadWith pat []
  | c :: cs => charsLeadWith pat (c :: cs) || charsInclude pat cs

/-- Model of JavaScript String.prototype.includes. -/
def strIncludes (s pat : String) : Bool :=
  charsInclude pat.data s.data

/-- The rate-limit classification used in the catch branch of processQueue:
the error message contains 429, or its lower-cased form contains the words
rate limit. -/
def isRateLimitedMsg (msg : String) : Bool :=
  strIncludes msg "429" || strIncludes (strLower msg) "rate limit"

/-! ### Core queue-store operations -/

/-- getNextPendingItem from queue.js: the first item, in insertion order,
whose status is PENDING. -/
def getNextPendingItem (s : QueueState) : Option QueueItem :=
  s.items.find? (fun it => decide (it.status = QueueStatus.pending))

/-- Index of the first PENDING item, used to model the in-place mutation of
the object returned by getNextPendingItem. -/
def firstPendingIdx : List QueueItem → Option Nat
  | [] => none
  | it :: rest =>
    if it.status = QueueStatus.pending then some 0
    else (firstPendingIdx rest).map (· + 1)

/-- Replaces the first element satisfying p by its image under f, leaving
everything else alone.  Models the JavaScript pattern of finding an item
and then mutating that object in place. -/
def updateFirstP (p : QueueItem → Bool) (f : QueueItem → QueueItem) :
    List QueueItem → List QueueItem
  | [] => []
  | it :: rest => if p it then f it :: rest else it :: updateFirstP p f rest

/-- The item literal pushed by the inner loop of addToQueue. -/
def mkQueueItem (idv : Nat) (prompt : String) (v totalV groupId ts : Nat)
    (cfg : Config) (refs : List RefImage) (bn : String) : QueueItem :=
  { id := idv
    prompt := strTrim prompt
    variationIndex := v
    totalVariations := totalV
    promptGroupId := groupId
    status := QueueStatus.pending
    createdAt := ts
    startedAt := none
    completedAt := none
    error := none
    filename := none
    config := cfg
    refImages := refs
    batchName := bn }

/-- The toast text surfaced when the queue limit stops item creation. -/
def queueLimitToast : String := "Queue limit reached"

/-- Inner for-loop of addToQueue over variation indices.  The fuel argument
counts the remaining iterations, so the current variation index is
totalV - fuel.  The guard and break mirror lines 519-522 of queue.js: once
the existing item count plus the accumulated new items reaches
MAX_QUEUE_ITEMS, a toast is recorded and the inner loop stops. -/
def addVariationsLoop (origLen : Nat) (prompt : String)
    (totalV groupId ts idStart : Nat) (cfg : Config) (refs : List RefImage)
    (bn : String) :
    Nat → List QueueItem → List String → List QueueItem × List String
  | 0, acc, toasts => (acc, toasts)
  | k + 1, acc, toasts =>
    if MAX_QUEUE_ITEMS ≤ origLen + acc.length then
      (acc, toasts ++ [queueLimitToast])
    else
      addVariationsLoop origLen prompt totalV groupId ts idStart cfg refs bn k
        (acc ++ [mkQueueItem (idStart + acc.length) prompt (totalV - (k + 1))
          totalV groupId ts cfg refs bn])
        toasts

/-- Outer forEach of addToQueue over the prompt list, threading the shared
newItems accumulator and toast log through the inner loops. -/
def addPromptsLoop (origLen vp ts idStart : Nat) (cfg : Config)
    (refs : List RefImage) (bn : String) :
    List String → Nat → List QueueItem → List String →
    List QueueItem × List String
  | [], _, acc, toasts => (acc, toasts)
  | p :: ps, promptIndex, acc, toasts =>
    let r := addVariationsLoop origLen p vp promptIndex ts idStart cfg refs bn
      vp acc toasts
    addPromptsLoop origLen vp ts idStart cfg refs bn ps (promptIndex + 1)
      r.1 r.2

/-- Result of addToQueue: the new queue state, the created items (the JS
return value), and the toasts surfaced while creating them. -/
structure AddToQueueResult where
  state : QueueState
  newItems : List QueueItem
  toasts : List String

/-- addToQueue from queue.js.  The timestamp is Date.now at call time and
idStart seeds the generated item ids; each item deep-copies the reference
snapshot and shallow-copies the config, which for immutable values is the
value itself. -/
def addToQueue (s : QueueState) (prompts : List String)
    (variationsPerPrompt : Nat) (cfg : Config) (refsSnapshot : List RefImage)
    (batchName : String) (ts idStart : Nat) : AddToQueueResult :=
  let r := addPromptsLoop s.items.length variationsPerPrompt ts idStart cfg
    refsSnapshot batchName prompts 0 [] []
  { state := { s with items := s.items ++ r.1 }
    newItems := r.1
    toasts := r.2 }

/-- removeQueueItem from queue.js: findIndex by id, then splice out the item
only when its status is PENDING. -/
def removeQueueItem (s : QueueState) (idv : Nat) : QueueState :=
  match s.items.findIdx? (fun it => decide (it.id = idv)) with
  | some i =>
    match s.items[i]? with
    | some it =>
      if it.status = QueueStatus.pending then
        { s with items := s.items.eraseIdx i }
      else s
    | none => s
  | none => s

/-- skipQueueItem from queue.js: the first item with the id, when PENDING,
becomes CANCELLED with the fixed skip message and a completion time. -/
def skipQueueItem (s : QueueState) (idv now : Nat) : QueueState :=
  match s.items.find? (fun it => decide (it.id = idv)) with
  | some it =>
    if it.status = QueueStatus.pending then
      let items2 := updateFirstP (fun i2 => decide (i2.id = idv))
        (fun i2 => { i2 with
          status := QueueStatus.cancelled
          error := some "Skipped by user"
          completedAt := some now }) s.items
      { s with items := items2 }
    else s
  | none => s

/-- startQueue from queue.js, restricted to its synchronous state changes:
no-op when already running or when no PENDING item exists, otherwise the
run flags and start time are set before the processing loop is entered. -/
def startQueue (s : QueueState) (now : Nat) : QueueState :=
  if s.isRunning then s
  else if (s.items.filter (fun it => decide (it.status = QueueStatus.pending))).length = 0 then s
  else { s with isRunning := true, isPaused := false, startedAt := some now }

/-- pauseQueue from queue.js. -/
def pauseQueue (s : QueueState) : QueueState :=
  if !s.isRunning then s else { s with isPaused := true }

/-- resumeQueue from queue.js, restricted to its synchronous state change. -/
def resumeQueue (s : QueueState) : QueueState :=
  if !s.isRunning || !s.isPaused then s else { s with isPaused := false }

/-- cancelQueue from queue.js: aborts the in-flight call, clears both run
flags, and marks every GENERATING item CANCELLED with the fixed message. -/
def cancelQueue (s : QueueState) : QueueState :=
  { s with
    isRunning := false
    isPaused := false
    items := s.items.map (fun it =>
      if it.status = QueueStatus.generating then
        { it with status := QueueStatus.cancelled, error := some "Cancelled by user" }
      else it) }

/-- setQueueDelay from queue.js. -/
def setQueueDelay (s : QueueState) (ms : Nat) : QueueState :=
  { s with delayBetweenMs := ms }

/-- clearQueue from queue.js.  The confirmation dialog is modelled by the
confirmed flag; an empty queue or a declined dialog leaves the state alone,
otherwise a running processor is cancelled first and then the item list,
both counters and the duration samples are reset. -/
def clearQueue (s : QueueState) (confirmed : Bool) : QueueState :=
  if s.items.length = 0 then s
  else if !confirmed then s
  else
    let s1 := if s.isRunning then cancelQueue s else s
    { s1 with
      items := []
      completedCount := 0
      failedCount := 0
      generationTimes := [] }

/-- retryQueueItem from queue.js.  The IndexedDB queueRefs store is modelled
by the store oracle from item id to the stored reference images.  When the
first item with the id is FAILED or CANCELLED, missing reference images are
repopulated from the store, the item transitions back to PENDING with its
error and timestamps cleared, and startQueue is invoked when the processor
is not running. -/
def retryQueueItem (s : QueueState) (idv : Nat)
    (store : Nat → Option (List RefImage)) (now : Nat) : QueueState :=
  match s.items.find? (fun it => decide (it.id = idv)) with
  | some it =>
    if it.status = QueueStatus.failed ∨ it.status = QueueStatus.cancelled then
      let items2 := updateFirstP (fun i2 => decide (i2.id = idv))
        (fun i2 => { i2 with
          refImages :=
            if i2.refImages.isEmpty then (store idv).getD i2.refImages
            else i2.refImages
          status := QueueStatus.pending
          error := none
          startedAt := none
          completedAt := none }) s.items
      let s1 := { s with items := items2 }
      if !s1.isRunning then startQueue s1 now else s1
    else s
  | none => s

/-! ### The processing loop -/

/-- A JavaScript error value as observed by the catch branch of
processQueue: its name (AbortError for a triggered cancellation token) and
its message, inspected by the rate-limit heuristic. -/
structure JsError where
  name : String
  message : String
  deriving DecidableEq, Repr

/-- Outcome of the awaited generateSingleImage call for one item. -/
inductive GenResult where
  | ok (imageData : String)
  | err (e : JsError)
  deriving DecidableEq, Repr

/-- What the loop body does after one item is handled: break out of the
loop (cancellation), continue immediately to re-evaluate the loop condition
(rate limit), or proceed past the catch to the persist, notify and
inter-item delay (success and ordinary failure). -/
inductive LoopAction where
  | breakLoop
  | continueLoop
  | proceed
  deriving DecidableEq, Repr

/-- Result of one evaluation of the while-loop of processQueue: the loop
condition failed, the queue completed because no PENDING item was left, or
one item was processed. -/
inductive StepResult where
  | notRunning (s : QueueState)
  | queueComplete (s : QueueState)
  | stepped (s : QueueState) (action : LoopAction)
  deriving DecidableEq, Repr

/-- State carried by a StepResult. -/
def StepResult.state : StepResult → QueueState
  | .notRunning s => s
  | .queueComplete s => s
  | .stepped s _ => s

/-- One iteration of the while loop of processQueue (queue.js lines
754-861).  The external effects are parameters: gen is the outcome of the
generation backend call, startNow and finishNow are the Date.now values at
the start and end of the attempt, and savedFilename is the outcome of the
optional filesystem save (none when no output directory is set or the save
failed).  The in-place mutation of the found pending item is modelled by
replacing the element at its index.  The inner match on the indexed lookup
cannot fail because firstPendingIdx only returns in-range indices. -/
def processQueueIter (s : QueueState) (gen : GenResult)
    (startNow finishNow : Nat) (savedFilename : Option String) : StepResult :=
  if s.isRunning && !s.isPaused then
    match firstPendingIdx s.items with
    | none => .queueComplete { s with isRunning := false }
    | some i =>
      match s.items[i]? with
      | none => .notRunning s
      | some item =>
        let gItem := { item with
          status := QueueStatus.generating
          startedAt := some startNow }
        let s1 := { s with items := s.items.set i gItem }
        match gen with
        | .ok _img =>
          let cItem := { gItem with
            status := QueueStatus.completed
            completedAt := some finishNow
            filename := savedFilename }
          let times1 := s1.generationTimes ++ [finishNow - startNow]
          let times2 := if 20 < times1.length then times1.drop 1 else times1
          .stepped { s1 with
            items := s1.items.set i cItem
            completedCount := s1.completedCount + 1
            generationTimes := times2 } .proceed
        | .err e =>
          if e.name = "AbortError" then
            let xItem := { gItem with
              status := QueueStatus.cancelled
              error := some "Cancelled" }
            .stepped { s1 with items := s1.items.set i xItem } .breakLoop
          else if isRateLimitedMsg e.message then
            let rItem := { gItem with
              status := QueueStatus.pending
              startedAt := none }
            .stepped { s1 with
              items := s1.items.set i rItem
              delayBetweenMs := min (s1.delayBetweenMs * 2) RATE_LIMIT_DELAY_CAP }
              .continueLoop
          else
            let fItem := { gItem with
              status := QueueStatus.failed
              error := some (if e.message = "" then "Unknown error" else e.message)
              completedAt := some finishNow }
            .stepped { s1 with
              items := s1.items.set i fItem
              failedCount := s1.failedCount + 1 } .proceed
  else .notRunning s

/-! ### Persistence and recovery -/

/-- What localStorage holds under the queue storage key, as seen by
restoreQueueState: nothing, a string JSON.parse rejects, or a string that
parses into a queue-state snapshot. -/
inductive StoredSnapshot where
  | absent
  | corrupt
  | parsed (ps : QueueState)

/-- Interrupted-job repair performed on restore: every persisted GENERATING
item returns to PENDING with its start time cleared. -/
def repairGenerating (items : List QueueItem) : List QueueItem :=
  items.map (fun it =>
    if it.status = QueueStatus.generating then
      { it with status := QueueStatus.pending, startedAt := none }
    else it)

/-- Statuses whose reference images are reloaded from the ref store on
restore. -/
def retryableStatus (st : QueueStatus) : Bool :=
  st = QueueStatus.pending || st = QueueStatus.failed || st = QueueStatus.cancelled

/-- Reference-image repopulation on restore: the ids of all retryable items
are bulk-loaded from the IndexedDB queueRefs store and every item found in
the resulting map receives its stored images. -/
def restoreRefs (store : Nat → Option (List RefImage))
    (items : List QueueItem) : List QueueItem :=
  items.map (fun it =>
    if retryableStatus it.status ∧ (store it.id).isSome then
      { it with refImages := (store it.id).getD it.refImages }
    else it)

/-- restoreQueueState from queue.js.  The first component of the result is
the in-memory queue state after the call (cur when nothing was restored)
and the second is the return value.  On a parsed snapshot the GENERATING
items are repaired first, then a previously running queue is marked paused,
then reference images are repopulated, and the repaired state replaces the
in-memory state and is returned. -/
def restoreQueueState (cur : QueueState) (stored : StoredSnapshot)
    (store : Nat → Option (List RefImage)) : QueueState × Option QueueState :=
  match stored with
  | .absent => (cur, none)
  | .corrupt => (cur, none)
  | .parsed ps =>
    let ps1 := { ps with
      items := repairGenerating ps.items
      isPaused := if ps.isRunning then true else ps.isPaused }
    let ps2 := { ps1 with items := restoreRefs store ps1.items }
    (ps2, some ps2)

/-! ### ETA estimation -/

/-- Math.round of the exact nonnegative rational num / den, as used via
Math.round on millisecond averages. -/
def jsRoundDiv (num den : Nat) : Nat :=
  (2 * num + den) / (2 * den)

/-- Number of PENDING items, as computed inline by getQueueETA. -/
def pendingCount (s : QueueState) : Nat :=
  (s.items.filter (fun it => decide (it.status = QueueStatus.pending))).length

/-- Number of GENERATING items, as computed inline by getQueueETA. -/
def inProgressCount (s : QueueState) : Nat :=
  (s.items.filter (fun it => decide (it.status = QueueStatus.generating))).length

/-- getAverageGenerationTime from queue.js: 30000 ms when no duration
sample exists, otherwise the rounded mean of the slice of the last ten
samples. -/
def getAverageGenerationTime (s : QueueState) : Nat :=
  if s.generationTimes.length = 0 then 30000
  else
    let recent := s.generationTimes.drop (s.generationTimes.length - 10)
    jsRoundDiv recent.sum recent.length

/-- formatDuration from queue.js. -/
def formatDuration (ms : Nat) : String :=
  if ms < 60000 then "~" ++ toString (jsRoundDiv ms 1000) ++ "s"
  else
    let mins := ms / 60000
    let secs := jsRoundDiv (ms % 60000) 1000
    if mins < 60 then
      if 0 < secs then "~" ++ toString mins ++ "m " ++ toString secs ++ "s"
      else "~" ++ toString mins ++ "m"
    else
      let hours := mins / 60
      let remMins := mins % 60
      if 0 < remMins then "~" ++ toString hours ++ "h " ++ toString remMins ++ "m"
      else "~" ++ toString hours ++ "h"

/-- The object returned by getQueueETA; the average and confidence fields
are absent on the completed branch. -/
structure QueueETA where
  totalMs : Nat
  formatted : String
  avgGenerationTime : Option Nat
  isEstimate : Option Bool
  deriving DecidableEq, Repr

/-- getQueueETA from queue.js. -/
def getQueueETA (s : QueueState) : QueueETA :=
  let pending := pendingCount s
  let inProgress := inProgressCount s
  if pending = 0 ∧ inProgress = 0 then
    { totalMs := 0, formatted := "Complete"
      avgGenerationTime := none, isEstimate := none }
  else
    let avgTime := getAverageGenerationTime s
    let remainingItems := pending + inProgress
    let totalMs := remainingItems * avgTime +
      max 0 (remainingItems - 1) * s.delayBetweenMs
    { totalMs := totalMs
      formatted := formatDuration totalMs
      avgGenerationTime := some avgTime
      isEstimate := some (decide (s.generationTimes.length < 3)) }

/-! ### Config override -/

/-- Modelled from the spec: updateQueueItemConfig, the queue-module function
imported and invoked by applySettingsToRemaining in queueUI.js but whose
definition is not present in the provided sources.  Per the spec, it merges
the given partial config into the config of every PENDING job, touches no
other job, and returns the number of jobs updated. -/
def updateQueueItemConfig (s : QueueState) (partialConfig : Config) :
    QueueState × Nat :=
  ({ s with items := s.items.map (fun it =>
      if it.status = QueueStatus.pending then
        { it with config := mergeConfig it.config partialConfig }
      else it) },
   (s.items.filter (fun it => decide (it.status = QueueStatus.pending))).length)

/-! ### Concrete fixtures used by the witness theorems -/

/-- Concrete queue item used by witnesses: a fresh item with the given id
and status. -/
def witItem (n : Nat) (st : QueueStatus) : QueueItem :=
  { mkQueueItem n "p" 0 1 0 5 [] [] "" with status := st }

/-- Concrete running queue state over the given items. -/
def witState (its : List QueueItem) : QueueState :=
  { items := its
    isRunning := true
    isPaused := false
    delayBetweenMs := 3000
    completedCount := 0
    failedCount := 0
    startedAt := none
    generationTimes := [] }

/-! ### Shared lemmas about list search and first-match update -/

theorem find?_spec {α : Type} {p : α → Bool} {l : List α} {a : α}
    (h : l.find? p = some a) :
    p a = true ∧ ∃ i, l[i]? = some a ∧
      ∀ (j : Nat) (b : α), j < i → l[j]? = some b → p b = false := by
  induction l with
  | nil => simp at h
  | cons x xs ih =>
    by_cases hx : p x
    · rw [List.find?_cons_of_pos _ hx] at h
      injection h with h
      subst h
      exact ⟨hx, 0, by simp, fun j b hj _ => absurd hj (by omega)⟩
    · rw [List.find?_cons_of_neg _ hx] at h
      obtain ⟨hpa, i, hi, hmin⟩ := ih h
      refine ⟨hpa, i + 1, by simpa using hi, ?_⟩
      intro j b hj hb
      cases j with
      | zero =>
        simp at hb
        subst hb
        simpa using hx
      | succ j =>
        simp [List.getElem?_cons_succ] at hb
        exact hmin j b (by omega) hb

theorem find?_eq_first {α : Type} {p : α → Bool} {l : List α} {i : Nat} {a : α}
    (ha : l[i]? = some a) (hpa : p a = true)
    (hmin : ∀ (j : Nat) (b : α), j < i → l[j]? = some b → p b = false) :
    l.find? p = some a := by
  induction l generalizing i with
  | nil => simp at ha
  | cons x xs ih =>
    cases i with
    | zero =>
      simp at ha
      subst ha
      rw [List.find?_cons_of_pos _ hpa]
    | succ i =>
      have hx : p x = false := hmin 0 x (by omega) (by simp)
      rw [List.find?_cons_of_neg _ (by simp [hx])]
      refine ih (by simpa using ha) ?_
      intro j b hj hb
      exact hmin (j + 1) b (by omega) (by simpa using hb)

theorem find?_exists_of_elem {α : Type} {p : α → Bool} {l : List α} {i : Nat}
    {a : α} (ha : l[i]? = some a) (hpa : p a = true) :
    ∃ j b, j ≤ i ∧ l.find? p = some b ∧ l[j]? = some b := by
  induction l generalizing i with
  | nil => simp at ha
  | cons x xs ih =>
    by_cases hx : p x
    · exact ⟨0, x, Nat.zero_le _, List.find?_cons_of_pos _ hx, by simp⟩
    · cases i with
      | zero =>
        simp at ha
        subst ha
        exact absurd hpa (by simpa using hx)
      | succ i =>
        obtain ⟨j, b, hji, hf, hjb⟩ := ih (by simpa using ha)
        refine ⟨j + 1, b, by omega, ?_, by simpa using hjb⟩
        rw [List.find?_cons_of_neg _ hx]
        exact hf

theorem firstPendingIdx_spec {l : List QueueItem} {i : Nat}
    (h : firstPendingIdx l = some i) :
    ∃ it, l[i]? = some it ∧ it.status = QueueStatus.pending ∧
      ∀ (j : Nat) (b : QueueItem), j < i → l[j]? = some b → b.status ≠ QueueStatus.pending := by
  induction l generalizing i with
  | nil => simp [firstPendingIdx] at h
  | cons x xs ih =>
    unfold firstPendingIdx at h
    by_cases hx : x.status = QueueStatus.pending
    · rw [if_pos hx] at h
      injection h with h
      subst h
      exact ⟨x, by simp, hx, fun j b hj _ => absurd hj (by omega)⟩
    · rw [if_neg hx] at h
      cases hfx : firstPendingIdx xs with
      | none =>
        rw [hfx] at h
        simp at h
      | some i0 =>
        rw [hfx] at h
        simp only [Option.map_some'] at h
        injection h with h
        subst h
        obtain ⟨it, h1, h2, h3⟩ := ih hfx
        refine ⟨it, by simpa using h1, h2, ?_⟩
        intro j b hj hb
        cases j with
        | zero =>
          simp at hb
          subst hb
          exact hx
        | succ j =>
          exact h3 j b (by omega) (by simpa using hb)

theorem updateFirstP_length (p : QueueItem → Bool) (f : QueueItem → QueueItem) :
    ∀ l : List QueueItem, (updateFirstP p f l).length = l.length := by
  intro l
  induction l with
  | nil => rfl
  | cons x xs ih =>
    by_cases hx : p x <;> simp [updateFirstP, hx, ih]

theorem updateFirstP_spec {p : QueueItem → Bool} {f : QueueItem → QueueItem}
    {l : List QueueItem} {a : QueueItem} (h : l.find? p = some a) :
    ∃ j, l[j]? = some a ∧
      (∀ (k : Nat) (b : QueueItem), k < j → l[k]? = some b → p b = false) ∧
      (updateFirstP p f l)[j]? = some (f a) ∧
      ∀ (k : Nat), k ≠ j → (updateFirstP p f l)[k]? = l[k]? := by
  induction l with
  | nil => simp at h
  | cons x xs ih =>
    by_cases hx : p x
    · rw [List.find?_cons_of_pos _ hx] at h
      injection h with h
      subst h
      refine ⟨0, by simp, fun k b hk _ => absurd hk (by omega), ?_, ?_⟩
      · simp [updateFirstP, hx]
      · intro k hk
        cases k with
        | zero => exact absurd rfl hk
        | succ k => simp [updateFirstP, hx]
    · rw [List.find?_cons_of_neg _ hx] at h
      obtain ⟨j, h1, h2, h3, h4⟩ := ih h
      refine ⟨j + 1, by simpa using h1, ?_, ?_, ?_⟩
      · intro k b hk hb
        cases k with
        | zero =>
          simp at hb
          subst hb
          simpa using hx
        | succ k =>
          exact h2 k b (by omega) (by simpa using hb)
      · simpa [updateFirstP, hx] using h3
      · intro k hk
        cases k with
        | zero => simp [updateFirstP, hx]
        | succ k =>
          have hkj : k ≠ j := by omega
          simpa [updateFirstP, hx] using h4 k hkj

theorem addToQueue_items (s : QueueState) (prompts : List String) (vp : Nat)
    (cfg : Config) (refs : List RefImage) (bn : String) (ts idStart : Nat) :
    (addToQueue s prompts vp cfg refs bn ts idStart).state.items =
      s.items ++ (addToQueue s prompts vp cfg refs bn ts idStart).newItems := rfl

/-! ### Claim theorems -/

/-- C10: when no persisted snapshot exists or the snapshot fails to parse,
restoreQueueState returns null and the in-memory queue state is completely
unchanged. -/
theorem restore_noop_on_missing_or_corrupt :
    ∀ (cur : QueueState) (store : Nat → Option (List RefImage)),
      restoreQueueState cur StoredSnapshot.absent store = (cur, none) ∧
      restoreQueueState cur StoredSnapshot.corrupt store = (cur, none) :=
  fun _cur _store => ⟨rfl, rfl⟩

/-- C7: after cancelQueue, isRunning and isPaused are both false, every job
that was GENERATING is CANCELLED with a non-null error message, and jobs in
every other status are untouched. -/
theorem cancel_spec (s : QueueState) :
    (cancelQueue s).isRunning = false ∧
    (cancelQueue s).isPaused = false ∧
    ∀ (i : Nat) (it : QueueItem), s.items[i]? = some it →
      (it.status = QueueStatus.generating →
        (cancelQueue s).items[i]? =
          some { it with status := QueueStatus.cancelled
                         error := some "Cancelled by user" }) ∧
      (it.status ≠ QueueStatus.generating →
        (cancelQueue s).items[i]? = some it) := by
  refine ⟨rfl, rfl, ?_⟩
  intro i it hit
  constructor
  · intro hg
    simp [cancelQueue, List.getElem?_map, hit, hg]
  · intro hg
    simp [cancelQueue, List.getElem?_map, hit, hg]

/-- C7 witness: cancelling a running queue with one GENERATING and one
PENDING job clears both flags, cancels the in-flight job with an error
message, and leaves the pending job alone. -/
theorem cancel_spec_witness :
    (cancelQueue (witState [witItem 1 QueueStatus.generating,
        witItem 2 QueueStatus.pending])).isRunning = false ∧
    (cancelQueue (witState [witItem 1 QueueStatus.generating,
        witItem 2 QueueStatus.pending])).items[0]? =
      some { witItem 1 QueueStatus.generating with
        status := QueueStatus.cancelled
        error := some "Cancelled by user" } ∧
    (cancelQueue (witState [witItem 1 QueueStatus.generating,
        witItem 2 QueueStatus.pending])).items[1]? =
      some (witItem 2 QueueStatus.pending) := by
  have h := cancel_spec (witState [witItem 1 QueueStatus.generating,
    witItem 2 QueueStatus.pending])
  exact ⟨h.1, (h.2.2 0 (witItem 1 QueueStatus.generating) rfl).1 rfl,
    (h.2.2 1 (witItem 2 QueueStatus.pending) rfl).2 (by decide)⟩

/-- C3: restoring a parsed snapshot returns the restored state, resets every
persisted GENERATING job to PENDING with a cleared start time at its
original position, and marks the restored state paused whenever the
snapshot was taken while running. -/
theorem restore_repairs_interrupted (cur ps : QueueState)
    (store : Nat → Option (List RefImage)) :
    (restoreQueueState cur (StoredSnapshot.parsed ps) store).2 =
      some (restoreQueueState cur (StoredSnapshot.parsed ps) store).1 ∧
    (∀ (i : Nat) (it : QueueItem), ps.items[i]? = some it →
      it.status = QueueStatus.generating →
      ∃ it2 : QueueItem,
        (restoreQueueState cur (StoredSnapshot.parsed ps) store).1.items[i]? =
          some it2 ∧
        it2.status = QueueStatus.pending ∧ it2.startedAt = none ∧
        it2.id = it.id) ∧
    (ps.isRunning = true →
      (restoreQueueState cur (StoredSnapshot.parsed ps) store).1.isPaused = true) := by
  refine ⟨rfl, ?_, ?_⟩
  · intro i it hit hg
    have hres : (restoreQueueState cur (StoredSnapshot.parsed ps) store).1.items =
        restoreRefs store (repairGenerating ps.items) := rfl
    have h1 : (repairGenerating ps.items)[i]? =
        some { it with status := QueueStatus.pending, startedAt := none } := by
      simp [repairGenerating, List.getElem?_map, hit, hg]
    by_cases hs : (store it.id).isSome
    · refine ⟨{ it with
          status := QueueStatus.pending
          startedAt := none
          refImages := (store it.id).getD it.refImages }, ?_, rfl, rfl, rfl⟩
      rw [hres]
      simp only [restoreRefs, List.getElem?_map, h1, Option.map_some']
      rw [if_pos ⟨rfl, hs⟩]
    · refine ⟨{ it with
          status := QueueStatus.pending
          startedAt := none }, ?_, rfl, rfl, rfl⟩
      rw [hres]
      simp only [restoreRefs, List.getElem?_map, h1, Option.map_some']
      rw [if_neg (fun hc => hs hc.2)]
  · intro hr
    have hps : (restoreQueueState cur (StoredSnapshot.parsed ps) store).1.isPaused =
        if ps.isRunning then true else ps.isPaused := rfl
    rw [hps, hr]
    rfl

/-- C3 witness: restoring a snapshot holding one GENERATING job with
isRunning set yields that job PENDING with no start time and a paused
state. -/
theorem restore_repairs_interrupted_witness :
    (∃ it2 : QueueItem,
      (restoreQueueState (witState [])
        (StoredSnapshot.parsed (witState [witItem 4 QueueStatus.generating]))
        (fun _ => none)).1.items[0]? = some it2 ∧
      it2.status = QueueStatus.pending ∧ it2.startedAt = none ∧
      it2.id = (witItem 4 QueueStatus.generating).id) ∧
    (restoreQueueState (witState [])
      (StoredSnapshot.parsed (witState [witItem 4 QueueStatus.generating]))
      (fun _ => none)).1.isPaused = true := by
  have h := restore_repairs_interrupted (witState [])
    (witState [witItem 4 QueueStatus.generating]) (fun _ => none)
  exact ⟨h.2.1 0 (witItem 4 QueueStatus.generating) rfl rfl, h.2.2 rfl⟩

/-- C9: updateQueueItemConfig merges the partial config into the config of
every PENDING job, leaves jobs in every other status untouched, and returns
the number of PENDING jobs it updated; the item list keeps its length. -/
theorem config_override_spec (s : QueueState) (pc : Config) :
    (∀ (i : Nat) (it : QueueItem), s.items[i]? = some it →
      (it.status = QueueStatus.pending →
        (updateQueueItemConfig s pc).1.items[i]? =
          some { it with config := mergeConfig it.config pc }) ∧
      (it.status ≠ QueueStatus.pending →
        (updateQueueItemConfig s pc).1.items[i]? = some it)) ∧
    (updateQueueItemConfig s pc).2 =
      (s.items.filter (fun it => decide (it.status = QueueStatus.pending))).length ∧
    (updateQueueItemConfig s pc).1.items.length = s.items.length := by
  refine ⟨?_, rfl, by simp [updateQueueItemConfig]⟩
  intro i it hit
  constructor
  · intro hp
    simp [updateQueueItemConfig, List.getElem?_map, hit, hp]
  · intro hp
    simp [updateQueueItemConfig, List.getElem?_map, hit, hp]

/-- C9 witness: overriding the config of a queue with one PENDING and one
COMPLETED job rewrites only the pending config and reports one updated
job. -/
theorem config_override_spec_witness :
    (updateQueueItemConfig (witState [witItem 1 QueueStatus.pending,
        witItem 2 QueueStatus.completed]) [("ratio", "16:9")]).1.items[0]? =
      some { witItem 1 QueueStatus.pending with
        config := mergeConfig (witItem 1 QueueStatus.pending).config
          [("ratio", "16:9")] } ∧
    (updateQueueItemConfig (witState [witItem 1 QueueStatus.pending,
        witItem 2 QueueStatus.completed]) [("ratio", "16:9")]).1.items[1]? =
      some (witItem 2 QueueStatus.completed) ∧
    (updateQueueItemConfig (witState [witItem 1 QueueStatus.pending,
        witItem 2 QueueStatus.completed]) [("ratio", "16:9")]).2 = 1 := by
  have h := config_override_spec (witState [witItem 1 QueueStatus.pending,
    witItem 2 QueueStatus.completed]) [("ratio", "16:9")]
  refine ⟨(h.1 0 (witItem 1 QueueStatus.pending) rfl).1 rfl,
    (h.1 1 (witItem 2 QueueStatus.completed) rfl).2 (by decide), ?_⟩
  rw [h.2.1]
  decide

theorem processQueueIter_rateLimited_eq (s : QueueState) (e : JsError)
    (i startNow finishNow : Nat) (fn : Option String)
    (hRun : s.isRunning = true) (hPause : s.isPaused = false)
    (hIdx : firstPendingIdx s.items = some i)
    (hName : e.name ≠ "AbortError")
    (hRate : isRateLimitedMsg e.message = true) :
    ∃ (it : QueueItem), s.items[i]? = some it ∧
      it.status = QueueStatus.pending ∧
      (∀ (j : Nat) (b : QueueItem), j < i → s.items[j]? = some b →
        b.status ≠ QueueStatus.pending) ∧
      processQueueIter s (GenResult.err e) startNow finishNow fn =
        StepResult.stepped { s with
          items := s.items.set i
            { it with status := QueueStatus.pending, startedAt := none }
          delayBetweenMs := min (s.delayBetweenMs * 2) RATE_LIMIT_DELAY_CAP }
          LoopAction.continueLoop := by
  obtain ⟨it, hit, hpend, hmin⟩ := firstPendingIdx_spec hIdx
  refine ⟨it, hit, hpend, hmin, ?_⟩
  simp only [processQueueIter, hRun, hPause, hIdx, hit, Bool.not_false,
    Bool.and_self, if_true, hRate, if_pos, hName, if_neg, if_false,
    List.set_set]

/-- C2: when the generation backend fails with a rate-limit error, the
in-flight job returns to PENDING with startedAt cleared at its original
position, no counter changes, the shared delay doubles capped at 60000 ms,
and the loop continues with the same job eligible (and indeed selected)
again. -/
theorem rate_limit_requeue_spec (s : QueueState) (e : JsError)
    (i startNow finishNow : Nat) (fn : Option String)
    (hRun : s.isRunning = true) (hPause : s.isPaused = false)
    (hIdx : firstPendingIdx s.items = some i)
    (hName : e.name ≠ "AbortError")
    (hRate : isRateLimitedMsg e.message = true) :
    ∃ (s2 : QueueState) (it : QueueItem),
      processQueueIter s (GenResult.err e) startNow finishNow fn =
        StepResult.stepped s2 LoopAction.continueLoop ∧
      s.items[i]? = some it ∧
      s2.items[i]? =
        some { it with status := QueueStatus.pending, startedAt := none } ∧
      (∀ (j : Nat), j ≠ i → s2.items[j]? = s.items[j]?) ∧
      s2.failedCount = s.failedCount ∧
      s2.completedCount = s.completedCount ∧
      s2.delayBetweenMs = min (s.delayBetweenMs * 2) RATE_LIMIT_DELAY_CAP ∧
      getNextPendingItem s2 =
        some { it with status := QueueStatus.pending, startedAt := none } := by
  obtain ⟨it, hit, _hpend, hmin, hstep⟩ := processQueueIter_rateLimited_eq s e
    i startNow finishNow fn hRun hPause hIdx hName hRate
  obtain ⟨hlen, _⟩ := List.getElem?_eq_some.mp hit
  refine ⟨{ s with
      items := s.items.set i
        { it with status := QueueStatus.pending, startedAt := none }
      delayBetweenMs := min (s.delayBetweenMs * 2) RATE_LIMIT_DELAY_CAP },
    it, hstep, hit, ?_, ?_, rfl, rfl, rfl, ?_⟩
  · exact List.getElem?_set_self (by simpa using hlen)
  · intro j hj
    exact List.getElem?_set_ne (Ne.symm hj)
  · apply find?_eq_first (i := i)
    · exact List.getElem?_set_self (by simpa using hlen)
    · simp
    · intro j b hj hb
      rw [List.getElem?_set_ne (by omega)] at hb
      exact decide_eq_false (hmin j b hj hb)

/-- C2 witness: a 429 error on the in-flight second job of a running queue
returns it to PENDING in place, keeps the counters, and doubles the 3000 ms
delay to 6000 ms. -/
theorem rate_limit_requeue_spec_witness :
    ∃ (s2 : QueueState) (it : QueueItem),
      processQueueIter (witState [witItem 1 QueueStatus.completed,
          witItem 2 QueueStatus.pending])
        (GenResult.err { name := "Error", message := "429" }) 10 20 none =
        StepResult.stepped s2 LoopAction.continueLoop ∧
      (witState [witItem 1 QueueStatus.completed,
        witItem 2 QueueStatus.pending]).items[1]? = some it ∧
      s2.items[1]? =
        some { it with status := QueueStatus.pending, startedAt := none } ∧
      (∀ (j : Nat), j ≠ 1 → s2.items[j]? =
        (witState [witItem 1 QueueStatus.completed,
          witItem 2 QueueStatus.pending]).items[j]?) ∧
      s2.failedCount = (witState [witItem 1 QueueStatus.completed,
        witItem 2 QueueStatus.pending]).failedCount ∧
      s2.completedCount = (witState [witItem 1 QueueStatus.completed,
        witItem 2 QueueStatus.pending]).completedCount ∧
      s2.delayBetweenMs = min ((witState [witItem 1 QueueStatus.completed,
        witItem 2 QueueStatus.pending]).delayBetweenMs * 2)
        RATE_LIMIT_DELAY_CAP ∧
      getNextPendingItem s2 =
        some { it with status := QueueStatus.pending, startedAt := none } :=
  rate_limit_requeue_spec
    (witState [witItem 1 QueueStatus.completed, witItem 2 QueueStatus.pending])
    { name := "Error", message := "429" } 1 10 20 none rfl rfl (by decide)
    (by decide) (by decide)

/-- C1: the job selected by the loop is always the first job in insertion
order whose status is PENDING; a job returned to PENDING by the rate-limit
branch keeps its original position in the item list, and after any further
enqueue the selected job sits no later than that original position, hence
before every newly appended job. -/
theorem fifo_selection_spec (s : QueueState) (e : JsError)
    (startNow finishNow : Nat) (fn : Option String) (prompts : List String)
    (vp : Nat) (cfg : Config) (refs : List RefImage) (bn : String)
    (ts idStart : Nat) :
    (∀ (it : QueueItem), getNextPendingItem s = some it →
      it.status = QueueStatus.pending ∧
      ∃ (i : Nat), s.items[i]? = some it ∧
        ∀ (j : Nat) (b : QueueItem), j < i → s.items[j]? = some b →
          b.status ≠ QueueStatus.pending) ∧
    (∀ (i : Nat), s.isRunning = true → s.isPaused = false →
      firstPendingIdx s.items = some i →
      e.name ≠ "AbortError" → isRateLimitedMsg e.message = true →
      ∃ (s2 : QueueState),
        processQueueIter s (GenResult.err e) startNow finishNow fn =
          StepResult.stepped s2 LoopAction.continueLoop ∧
        s2.items.length = s.items.length ∧
        (∀ (j : Nat), j ≠ i → s2.items[j]? = s.items[j]?) ∧
        (∃ (it : QueueItem), s.items[i]? = some it ∧
          s2.items[i]? =
            some { it with status := QueueStatus.pending, startedAt := none }) ∧
        ∃ (j : Nat) (sel : QueueItem), j ≤ i ∧
          getNextPendingItem
            (addToQueue s2 prompts vp cfg refs bn ts idStart).state =
            some sel ∧
          s2.items[j]? = some sel) := by
  constructor
  · intro it hit
    obtain ⟨hp, i, hi, hmin⟩ := find?_spec hit
    refine ⟨of_decide_eq_true hp, i, hi, ?_⟩
    intro j b hj hb
    exact of_decide_eq_false (hmin j b hj hb)
  · intro i hRun hPause hIdx hName hRate
    obtain ⟨it, hit, _hpend, _hmin, hstep⟩ := processQueueIter_rateLimited_eq
      s e i startNow finishNow fn hRun hPause hIdx hName hRate
    obtain ⟨hlen, _⟩ := List.getElem?_eq_some.mp hit
    refine ⟨_, hstep, by simp, ?_, ⟨it, hit, ?_⟩, ?_⟩
    · intro j hj
      exact List.getElem?_set_ne (Ne.symm hj)
    · exact List.getElem?_set_self (by simpa using hlen)
    · have hat : (s.items.set i
          { it with status := QueueStatus.pending, startedAt := none })[i]? =
          some { it with status := QueueStatus.pending, startedAt := none } :=
        List.getElem?_set_self (by simpa using hlen)
      have hilen : i < (s.items.set i
          { it with status := QueueStatus.pending, startedAt := none }).length := by
        simpa using hlen
      set s2 : QueueState := { s with
        items := s.items.set i
          { it with status := QueueStatus.pending, startedAt := none }
        delayBetweenMs := min (s.delayBetweenMs * 2) RATE_LIMIT_DELAY_CAP }
        with hs2
      have happ : (addToQueue s2 prompts vp cfg refs bn ts idStart).state.items =
          s2.items ++ (addToQueue s2 prompts vp cfg refs bn ts idStart).newItems :=
        addToQueue_items s2 prompts vp cfg refs bn ts idStart
      have hat2 : (s2.items ++
          (addToQueue s2 prompts vp cfg refs bn ts idStart).newItems)[i]? =
          some { it with status := QueueStatus.pending, startedAt := none } := by
        rw [List.getElem?_append]
        rw [if_pos hilen]
        exact hat
      have hslen : s2.items.length = s.items.length := by
        rw [hs2]
        simp
      obtain ⟨j, sel, hji, hfind, hjel⟩ := find?_exists_of_elem
        (p := fun (i2 : QueueItem) => decide (i2.status = QueueStatus.pending)) hat2 rfl
      refine ⟨j, sel, hji, ?_, ?_⟩
      · show ((addToQueue s2 prompts vp cfg refs bn ts idStart).state.items.find?
          (fun i2 => decide (i2.status = QueueStatus.pending))) = some sel
        rw [happ]
        exact hfind
      · rw [List.getElem?_append, if_pos (by omega)] at hjel
        exact hjel

/-- C1 witness: in a running queue whose second job is in flight and gets
rate limited, the job returns to PENDING at index one, and after enqueueing
one further prompt the selected job still sits at an index at most one. -/
theorem fifo_selection_spec_witness :
    ((witItem 2 QueueStatus.pending).status = QueueStatus.pending ∧
      ∃ (i : Nat), (witState [witItem 1 QueueStatus.completed,
          witItem 2 QueueStatus.pending]).items[i]? =
          some (witItem 2 QueueStatus.pending) ∧
        ∀ (j : Nat) (b : QueueItem), j < i →
          (witState [witItem 1 QueueStatus.completed,
            witItem 2 QueueStatus.pending]).items[j]? = some b →
          b.status ≠ QueueStatus.pending) ∧
    (∃ (s2 : QueueState),
      processQueueIter (witState [witItem 1 QueueStatus.completed,
          witItem 2 QueueStatus.pending])
        (GenResult.err { name := "Error", message := "429" }) 10 20 none =
        StepResult.stepped s2 LoopAction.continueLoop ∧
      s2.items.length = (witState [witItem 1 QueueStatus.completed,
        witItem 2 QueueStatus.pending]).items.length ∧
      (∀ (j : Nat), j ≠ 1 → s2.items[j]? =
        (witState [witItem 1 QueueStatus.completed,
          witItem 2 QueueStatus.pending]).items[j]?) ∧
      (∃ (it : QueueItem), (witState [witItem 1 QueueStatus.completed,
          witItem 2 QueueStatus.pending]).items[1]? = some it ∧
        s2.items[1]? =
          some { it with status := QueueStatus.pending, startedAt := none }) ∧
      ∃ (j : Nat) (sel : QueueItem), j ≤ 1 ∧
        getNextPendingItem
          (addToQueue s2 ["q"] 1 [] [] "" 50 9).state = some sel ∧
        s2.items[j]? = some sel) := by
  have h := fifo_selection_spec
    (witState [witItem 1 QueueStatus.completed, witItem 2 QueueStatus.pending])
    { name := "Error", message := "429" } 10 20 none ["q"] 1 [] [] "" 50 9
  exact ⟨h.1 (witItem 2 QueueStatus.pending) rfl,
    h.2 1 rfl rfl (by decide) (by decide) (by decide)⟩

theorem addVariationsLoop_len_le (origLen : Nat) (prompt : String)
    (totalV groupId ts idStart : Nat) (cfg : Config) (refs : List RefImage)
    (bn : String) :
    ∀ (fuel : Nat) (acc : List QueueItem) (toasts : List String),
      origLen + ((addVariationsLoop origLen prompt totalV groupId ts idStart
        cfg refs bn fuel acc toasts).1).length ≤
        max (origLen + acc.length) MAX_QUEUE_ITEMS := by
  intro fuel
  induction fuel with
  | zero =>
    intro acc toasts
    simp only [addVariationsLoop]
    omega
  | succ k ih =>
    intro acc toasts
    by_cases hcap : MAX_QUEUE_ITEMS ≤ origLen + acc.length
    · simp only [addVariationsLoop, if_pos hcap]
      omega
    · simp only [addVariationsLoop, if_neg hcap]
      have h := ih (acc ++ [mkQueueItem (idStart + acc.length) prompt
        (totalV - (k + 1)) totalV groupId ts cfg refs bn]) toasts
      simp only [List.length_append, List.length_cons, List.length_nil] at h
      omega

theorem addVariationsLoop_complete_or_toast (origLen : Nat) (prompt : String)
    (totalV groupId ts idStart : Nat) (cfg : Config) (refs : List RefImage)
    (bn : String) :
    ∀ (fuel : Nat) (acc : List QueueItem) (toasts : List String),
      (((addVariationsLoop origLen prompt totalV groupId ts idStart cfg refs
          bn fuel acc toasts).1).length = acc.length + fuel ∧
        (addVariationsLoop origLen prompt totalV groupId ts idStart cfg refs
          bn fuel acc toasts).2 = toasts) ∨
      queueLimitToast ∈ (addVariationsLoop origLen prompt totalV groupId ts
        idStart cfg refs bn fuel acc toasts).2 := by
  intro fuel
  induction fuel with
  | zero =>
    intro acc toasts
    simp [addVariationsLoop]
  | succ k ih =>
    intro acc toasts
    by_cases hcap : MAX_QUEUE_ITEMS ≤ origLen + acc.length
    · simp only [addVariationsLoop, if_pos hcap]
      right
      simp
    · simp only [addVariationsLoop, if_neg hcap]
      rcases ih (acc ++ [mkQueueItem (idStart + acc.length) prompt
        (totalV - (k + 1)) totalV groupId ts cfg refs bn]) toasts with
        ⟨h1, h2⟩ | h3
      · left
        refine ⟨?_, h2⟩
        simp only [List.length_append, List.length_cons, List.length_nil] at h1
        omega
      · right
        exact h3

theorem addPromptsLoop_len_le (origLen vp ts idStart : Nat) (cfg : Config)
    (refs : List RefImage) (bn : String) :
    ∀ (ps : List String) (pidx : Nat) (acc : List QueueItem)
      (toasts : List String),
      origLen + ((addPromptsLoop origLen vp ts idStart cfg refs bn ps pidx
        acc toasts).1).length ≤ max (origLen + acc.length) MAX_QUEUE_ITEMS := by
  intro ps
  induction ps with
  | nil =>
    intro pidx acc toasts
    simp only [addPromptsLoop]
    omega
  | cons p ps ih =>
    intro pidx acc toasts
    simp only [addPromptsLoop]
    have h1 := addVariationsLoop_len_le origLen p vp pidx ts idStart cfg refs
      bn vp acc toasts
    have h2 := ih (pidx + 1)
      (addVariationsLoop origLen p vp pidx ts idStart cfg refs bn vp acc
        toasts).1
      (addVariationsLoop origLen p vp pidx ts idStart cfg refs bn vp acc
        toasts).2
    omega

theorem addPromptsLoop_complete_or_toast (origLen vp ts idStart : Nat)
    (cfg : Config) (refs : List RefImage) (bn : String) :
    ∀ (ps : List String) (pidx : Nat) (acc : List QueueItem)
      (toasts : List String),
      (((addPromptsLoop origLen vp ts idStart cfg refs bn ps pidx acc
          toasts).1).length = acc.length + ps.length * vp ∧
        (addPromptsLoop origLen vp ts idStart cfg refs bn ps pidx acc
          toasts).2 = toasts) ∨
      queueLimitToast ∈ (addPromptsLoop origLen vp ts idStart cfg refs bn ps
        pidx acc toasts).2 := by
  intro ps
  induction ps with
  | nil =>
    intro pidx acc toasts
    simp [addPromptsLoop]
  | cons p ps ih =>
    intro pidx acc toasts
    simp only [addPromptsLoop]
    rcases addVariationsLoop_complete_or_toast origLen p vp pidx ts idStart
      cfg refs bn vp acc toasts with ⟨h1, h2⟩ | h3
    · rcases ih (pidx + 1)
        (addVariationsLoop origLen p vp pidx ts idStart cfg refs bn vp acc
          toasts).1
        (addVariationsLoop origLen p vp pidx ts idStart cfg refs bn vp acc
          toasts).2 with ⟨g1, g2⟩ | g3
      · left
        constructor
        · simp only [List.length_cons]
          rw [g1, h1]
          ring
        · rw [g2, h2]
      · right
        exact g3
    · rcases ih (pidx + 1)
        (addVariationsLoop origLen p vp pidx ts idStart cfg refs bn vp acc
          toasts).1
        (addVariationsLoop origLen p vp pidx ts idStart cfg refs bn vp acc
          toasts).2 with ⟨_, g2⟩ | g3
      · right
        rw [g2]
        exact h3
      · right
        exact g3

/-- C4: for every prior queue state within the 100-item cap, enqueueing any
batch never pushes the total job count above the cap, keeps every job
created so far appended to the existing list with no rollback, and surfaces
the queue-limit toast whenever fewer jobs were created than requested. -/
theorem enqueue_respects_cap (s : QueueState) (prompts : List String)
    (vp : Nat) (cfg : Config) (refs : List RefImage) (bn : String)
    (ts idStart : Nat) (hcap : s.items.length ≤ MAX_QUEUE_ITEMS) :
    (addToQueue s prompts vp cfg refs bn ts idStart).state.items.length ≤
      MAX_QUEUE_ITEMS ∧
    (addToQueue s prompts vp cfg refs bn ts idStart).state.items =
      s.items ++ (addToQueue s prompts vp cfg refs bn ts idStart).newItems ∧
    ((addToQueue s prompts vp cfg refs bn ts idStart).newItems.length <
        prompts.length * vp →
      queueLimitToast ∈ (addToQueue s prompts vp cfg refs bn ts
        idStart).toasts) := by
  have hnew : (addToQueue s prompts vp cfg refs bn ts idStart).newItems =
      (addPromptsLoop s.items.length vp ts idStart cfg refs bn prompts 0 []
        []).1 := rfl
  have htoast : (addToQueue s prompts vp cfg refs bn ts idStart).toasts =
      (addPromptsLoop s.items.length vp ts idStart cfg refs bn prompts 0 []
        []).2 := rfl
  refine ⟨?_, addToQueue_items s prompts vp cfg refs bn ts idStart, ?_⟩
  · have h := addPromptsLoop_len_le s.items.length vp ts idStart cfg refs bn
      prompts 0 [] []
    have hlen : (addToQueue s prompts vp cfg refs bn ts
        idStart).state.items.length =
        s.items.length + (addPromptsLoop s.items.length vp ts idStart cfg
          refs bn prompts 0 [] []).1.length := by
      rw [addToQueue_items s prompts vp cfg refs bn ts idStart,
        List.length_append, hnew]
    rw [hlen]
    simp only [List.length_nil] at h
    omega
  · intro hlt
    rcases addPromptsLoop_complete_or_toast s.items.length vp ts idStart cfg
      refs bn prompts 0 [] [] with ⟨h1, _⟩ | h3
    · rw [hnew] at hlt
      rw [h1] at hlt
      simp at hlt
    · rw [htoast]
      exact h3

/-- C4 witness: enqueueing three variations of one prompt into a queue of
99 jobs creates exactly one job, stays at 100 total, and surfaces the
queue-limit toast. -/
theorem enqueue_respects_cap_witness :
    (addToQueue (witState (List.replicate 99 (witItem 0
        QueueStatus.completed))) ["a"] 3 [] [] "" 50 9).state.items.length ≤
      MAX_QUEUE_ITEMS ∧
    queueLimitToast ∈ (addToQueue (witState (List.replicate 99 (witItem 0
        QueueStatus.completed))) ["a"] 3 [] [] "" 50 9).toasts := by
  have h := enqueue_respects_cap
    (witState (List.replicate 99 (witItem 0 QueueStatus.completed)))
    ["a"] 3 [] [] "" 50 9 (by decide)
  exact ⟨h.1, h.2.2 (by decide)⟩

/-- C6: retry changes a job only when it is FAILED or CANCELLED, in which
case the job (at its original position) returns to PENDING with error and
timestamps cleared, its reference images repopulated from the ref store
when they were missing, every other job untouched, and the processor
restarted when it was not running; a job in any other status, or an unknown
id, leaves the whole state unchanged. -/
theorem retry_spec (s : QueueState) (idv : Nat)
    (store : Nat → Option (List RefImage)) (now : Nat) :
    (∀ (it : QueueItem),
      s.items.find? (fun i2 => decide (i2.id = idv)) = some it →
      (it.status = QueueStatus.failed ∨ it.status = QueueStatus.cancelled) →
      ∃ (j : Nat), s.items[j]? = some it ∧
        (retryQueueItem s idv store now).items[j]? =
          some { it with
            refImages := if it.refImages.isEmpty
              then (store idv).getD it.refImages else it.refImages
            status := QueueStatus.pending
            error := none
            startedAt := none
            completedAt := none } ∧
        (∀ (k : Nat), k ≠ j →
          (retryQueueItem s idv store now).items[k]? = s.items[k]?) ∧
        (s.isRunning = false →
          (retryQueueItem s idv store now).isRunning = true ∧
          (retryQueueItem s idv store now).isPaused = false) ∧
        (s.isRunning = true →
          (retryQueueItem s idv store now).isRunning = true)) ∧
    (∀ (it : QueueItem),
      s.items.find? (fun i2 => decide (i2.id = idv)) = some it →
      ¬(it.status = QueueStatus.failed ∨ it.status = QueueStatus.cancelled) →
      retryQueueItem s idv store now = s) ∧
    (s.items.find? (fun i2 => decide (i2.id = idv)) = none →
      retryQueueItem s idv store now = s) := by
  refine ⟨?_, ?_, ?_⟩
  · intro it hfind hst
    obtain ⟨j, hj, _hminj, hupd, hother⟩ := updateFirstP_spec
      (f := fun (i2 : QueueItem) => { i2 with
        refImages := if i2.refImages.isEmpty
          then (store idv).getD i2.refImages else i2.refImages
        status := QueueStatus.pending
        error := none
        startedAt := none
        completedAt := none }) hfind
    by_cases hr : s.isRunning
    · have hres : retryQueueItem s idv store now = { s with
          items := updateFirstP (fun i2 => decide (i2.id = idv))
            (fun i2 => { i2 with
              refImages := if i2.refImages.isEmpty
                then (store idv).getD i2.refImages else i2.refImages
              status := QueueStatus.pending
              error := none
              startedAt := none
              completedAt := none }) s.items } := by
        simp only [retryQueueItem, hfind]
        rw [if_pos hst]
        simp [hr]
      refine ⟨j, hj, ?_, ?_, ?_, ?_⟩
      · rw [hres]
        exact hupd
      · intro k hk
        rw [hres]
        exact hother k hk
      · intro hfalse
        rw [hfalse] at hr
        simp at hr
      · intro _
        rw [hres]
        exact hr
    · have hrb : s.isRunning = false := by simpa using hr
      have hpendmem : ∀ (l2 : List QueueItem),
          l2[j]? = some { it with
            refImages := if it.refImages.isEmpty
              then (store idv).getD it.refImages else it.refImages
            status := QueueStatus.pending
            error := none
            startedAt := none
            completedAt := none } →
          ¬((l2.filter (fun i2 =>
            decide (i2.status = QueueStatus.pending))).length = 0) := by
        intro l2 hl2 hzero
        obtain ⟨hlt, heq⟩ := List.getElem?_eq_some.mp hl2
        have hmem : { it with
            refImages := if it.refImages.isEmpty
              then (store idv).getD it.refImages else it.refImages
            status := QueueStatus.pending
            error := none
            startedAt := none
            completedAt := none } ∈ l2 := heq ▸ List.getElem_mem hlt
        have hnil := List.length_eq_zero.mp hzero
        have := List.filter_eq_nil_iff.mp hnil _ hmem
        simp at this
      have hres : retryQueueItem s idv store now = { s with
          items := updateFirstP (fun i2 => decide (i2.id = idv))
            (fun i2 => { i2 with
              refImages := if i2.refImages.isEmpty
                then (store idv).getD i2.refImages else i2.refImages
              status := QueueStatus.pending
              error := none
              startedAt := none
              completedAt := none }) s.items
          isRunning := true
          isPaused := false
          startedAt := some now } := by
        simp only [retryQueueItem, hfind]
        rw [if_pos hst]
        simp only [hrb, Bool.not_false, if_true, startQueue]
        rw [if_neg (by simp [hrb])]
        rw [if_neg (hpendmem _ hupd)]
      refine ⟨j, hj, ?_, ?_, ?_, ?_⟩
      · rw [hres]
        exact hupd
      · intro k hk
        rw [hres]
        exact hother k hk
      · intro _
        rw [hres]
        exact ⟨rfl, rfl⟩
      · intro htrue
        rw [htrue] at hrb
        cases hrb
  · intro it hfind hst
    simp only [retryQueueItem, hfind]
    rw [if_neg hst]
  · intro hfind
    simp only [retryQueueItem, hfind]

/-- C6 witness: retrying a FAILED job with no in-memory reference images on
an idle queue repopulates the images from the store, returns the job to
PENDING with cleared error and timestamps, and restarts the processor. -/
theorem retry_spec_witness :
    ∃ (j : Nat),
      ({ witState [witItem 7 QueueStatus.failed] with
        isRunning := false } : QueueState).items[j]? =
        some (witItem 7 QueueStatus.failed) ∧
      (retryQueueItem { witState [witItem 7 QueueStatus.failed] with
          isRunning := false } 7 (fun _ => some [{ rid := 1, data := "d" }])
          42).items[j]? =
        some { witItem 7 QueueStatus.failed with
          refImages := if (witItem 7 QueueStatus.failed).refImages.isEmpty
            then ((fun (_ : Nat) => some [({ rid := 1, data := "d" } :
              RefImage)]) 7).getD (witItem 7 QueueStatus.failed).refImages
            else (witItem 7 QueueStatus.failed).refImages
          status := QueueStatus.pending
          error := none
          startedAt := none
          completedAt := none } ∧
      (∀ (k : Nat), k ≠ j →
        (retryQueueItem { witState [witItem 7 QueueStatus.failed] with
          isRunning := false } 7 (fun _ => some [{ rid := 1, data := "d" }])
          42).items[k]? =
        ({ witState [witItem 7 QueueStatus.failed] with
          isRunning := false } : QueueState).items[k]?) ∧
      (({ witState [witItem 7 QueueStatus.failed] with
          isRunning := false } : QueueState).isRunning = false →
        (retryQueueItem { witState [witItem 7 QueueStatus.failed] with
          isRunning := false } 7 (fun _ => some [{ rid := 1, data := "d" }])
          42).isRunning = true ∧
        (retryQueueItem { witState [witItem 7 QueueStatus.failed] with
          isRunning := false } 7 (fun _ => some [{ rid := 1, data := "d" }])
          42).isPaused = false) ∧
      (({ witState [witItem 7 QueueStatus.failed] with
          isRunning := false } : QueueState).isRunning = true →
        (retryQueueItem { witState [witItem 7 QueueStatus.failed] with
          isRunning := false } 7 (fun _ => some [{ rid := 1, data := "d" }])
          42).isRunning = true) :=
  (retry_spec { witState [witItem 7 QueueStatus.failed] with
      isRunning := false } 7 (fun _ => some [{ rid := 1, data := "d" }])
      42).1 (witItem 7 QueueStatus.failed) (by decide) (by decide)

/-- C8: with no duration samples the average is the fixed default 30000 ms;
with at least one sample it is the rounded mean of the most recent
min(10, sample count) durations; the estimated remaining time equals
(pending + inProgress) times the average plus max(0, pending + inProgress
minus one) times the delay; and the low-confidence flag is set exactly when
fewer than three samples exist. -/
theorem eta_spec (s : QueueState) :
    (s.generationTimes = [] → getAverageGenerationTime s = 30000) ∧
    (s.generationTimes ≠ [] →
      ∃ (pre recent : List Nat), s.generationTimes = pre ++ recent ∧
        recent.length = min 10 s.generationTimes.length ∧
        getAverageGenerationTime s = jsRoundDiv recent.sum recent.length) ∧
    (getQueueETA s).totalMs =
      (pendingCount s + inProgressCount s) * getAverageGenerationTime s +
        max 0 (pendingCount s + inProgressCount s - 1) * s.delayBetweenMs ∧
    (0 < pendingCount s + inProgressCount s →
      ((getQueueETA s).isEstimate = some true ↔
        s.generationTimes.length < 3)) := by
  refine ⟨?_, ?_, ?_, ?_⟩
  · intro h
    simp [getAverageGenerationTime, h]
  · intro h
    have hlen : s.generationTimes.length ≠ 0 := by
      simpa [List.length_eq_zero] using h
    refine ⟨s.generationTimes.take (s.generationTimes.length - 10),
      s.generationTimes.drop (s.generationTimes.length - 10),
      (List.take_append_drop _ _).symm, ?_, ?_⟩
    · rw [List.length_drop]
      omega
    · unfold getAverageGenerationTime
      rw [if_neg hlen]
  · by_cases hz : pendingCount s = 0 ∧ inProgressCount s = 0
    · have h0 : (getQueueETA s).totalMs = 0 := by
        unfold getQueueETA
        rw [if_pos hz]
      rw [h0, hz.1, hz.2]
      simp
    · unfold getQueueETA
      rw [if_neg hz]
  · intro hpos
    have hz : ¬(pendingCount s = 0 ∧ inProgressCount s = 0) := by omega
    have he : (getQueueETA s).isEstimate =
        some (decide (s.generationTimes.length < 3)) := by
      unfold getQueueETA
      rw [if_neg hz]
    rw [he]
    simp

/-- C8 witness: with no samples the default 30000 ms is returned; with
twelve samples and two remaining jobs the rounded mean of the last ten
samples feeds the remaining-time formula and the flag is off. -/
theorem eta_spec_witness :
    getAverageGenerationTime (witState []) = 30000 ∧
    (∃ (pre recent : List Nat),
      ({ witState [witItem 1 QueueStatus.pending,
          witItem 2 QueueStatus.generating] with
        generationTimes := [1000, 2000, 3000, 4000, 5000, 6000, 7000, 8000,
          9000, 10000, 11000, 12000] } : QueueState).generationTimes =
        pre ++ recent ∧
      recent.length = min 10 ({ witState [witItem 1 QueueStatus.pending,
          witItem 2 QueueStatus.generating] with
        generationTimes := [1000, 2000, 3000, 4000, 5000, 6000, 7000, 8000,
          9000, 10000, 11000, 12000] } : QueueState).generationTimes.length ∧
      getAverageGenerationTime { witState [witItem 1 QueueStatus.pending,
          witItem 2 QueueStatus.generating] with
        generationTimes := [1000, 2000, 3000, 4000, 5000, 6000, 7000, 8000,
          9000, 10000, 11000, 12000] } =
        jsRoundDiv recent.sum recent.length) ∧
    (getQueueETA { witState [witItem 1 QueueStatus.pending,
        witItem 2 QueueStatus.generating] with
      generationTimes := [1000, 2000, 3000, 4000, 5000, 6000, 7000, 8000,
        9000, 10000, 11000, 12000] }).totalMs =
      (pendingCount { witState [witItem 1 QueueStatus.pending,
          witItem 2 QueueStatus.generating] with
        generationTimes := [1000, 2000, 3000, 4000, 5000, 6000, 7000, 8000,
          9000, 10000, 11000, 12000] } +
        inProgressCount { witState [witItem 1 QueueStatus.pending,
          witItem 2 QueueStatus.generating] with
        generationTimes := [1000, 2000, 3000, 4000, 5000, 6000, 7000, 8000,
          9000, 10000, 11000, 12000] }) *
        getAverageGenerationTime { witState [witItem 1 QueueStatus.pending,
          witItem 2 QueueStatus.generating] with
        generationTimes := [1000, 2000, 3000, 4000, 5000, 6000, 7000, 8000,
          9000, 10000, 11000, 12000] } +
      max 0 (pendingCount { witState [witItem 1 QueueStatus.pending,
          witItem 2 QueueStatus.generating] with
        generationTimes := [1000, 2000, 3000, 4000, 5000, 6000, 7000, 8000,
          9000, 10000, 11000, 12000] } +
        inProgressCount { witState [witItem 1 QueueStatus.pending,
          witItem 2 QueueStatus.generating] with
        generationTimes := [1000, 2000, 3000, 4000, 5000, 6000, 7000, 8000,
          9000, 10000, 11000, 12000] } - 1) *
        ({ witState [witItem 1 QueueStatus.pending,
          witItem 2 QueueStatus.generating] with
        generationTimes := [1000, 2000, 3000, 4000, 5000, 6000, 7000, 8000,
          9000, 10000, 11000, 12000] } : QueueState).delayBetweenMs ∧
    ((getQueueETA { witState [witItem 1 QueueStatus.pending,
        witItem 2 QueueStatus.generating] with
      generationTimes := [1000, 2000, 3000, 4000, 5000, 6000, 7000, 8000,
        9000, 10000, 11000, 12000] }).isEstimate = some true ↔
      ({ witState [witItem 1 QueueStatus.pending,
          witItem 2 QueueStatus.generating] with
        generationTimes := [1000, 2000, 3000, 4000, 5000, 6000, 7000, 8000,
          9000, 10000, 11000, 12000] } : QueueState).generationTimes.length <
        3) := by
  have h0 := eta_spec (witState [])
  have h := eta_spec { witState [witItem 1 QueueStatus.pending,
      witItem 2 QueueStatus.generating] with
    generationTimes := [1000, 2000, 3000, 4000, 5000, 6000, 7000, 8000,
      9000, 10000, 11000, 12000] }
  exact ⟨h0.1 rfl, h.2.1 (by decide), h.2.2.1, h.2.2.2 (by decide)⟩

/-- C5 counterexample: a confirmed clearQueue on a queue holding one item
with completedCount one resets the counter to zero, so clear does decrement
completedCount (and the sum of both counters), refuting the claim that no
operation ever decreases them. -/
theorem clear_decrements_counters_counterexample :
    (clearQueue
        { items := [witItem 1 QueueStatus.completed], isRunning := false,
          isPaused := false, delayBetweenMs := 3000, completedCount := 1,
          failedCount := 0, startedAt := none, generationTimes := [5000] }
        true).completedCount <
      ({ items := [witItem 1 QueueStatus.completed], isRunning := false,
          isPaused := false, delayBetweenMs := 3000, completedCount := 1,
          failedCount := 0, startedAt := none, generationTimes := [5000] } :
        QueueState).completedCount := by
  decide

theorem startQueue_counters (s : QueueState) (now : Nat) :
    (startQueue s now).completedCount = s.completedCount ∧
    (startQueue s now).failedCount = s.failedCount := by
  unfold startQueue
  repeat' split
  all_goals exact ⟨rfl, rfl⟩

/-- C5 amended: completedCount and failedCount never decrease under
enqueue, remove, skip, retry, start, pause, resume, cancel, setDelay,
config override, and every processing-loop step; clearQueue, however, is
the one exception: declined or on an empty queue it changes nothing, while
a confirmed clear of a nonempty queue resets both counters to zero. -/
theorem counters_monotone_amended (s : QueueState) (prompts : List String)
    (vp : Nat) (cfg pc : Config) (refs : List RefImage) (bn : String)
    (ts idStart idv now ms : Nat) (store : Nat → Option (List RefImage))
    (gen : GenResult) (t1 t2 : Nat) (fn : Option String) :
    ((addToQueue s prompts vp cfg refs bn ts idStart).state.completedCount =
        s.completedCount ∧
      (addToQueue s prompts vp cfg refs bn ts idStart).state.failedCount =
        s.failedCount) ∧
    ((removeQueueItem s idv).completedCount = s.completedCount ∧
      (removeQueueItem s idv).failedCount = s.failedCount) ∧
    ((skipQueueItem s idv now).completedCount = s.completedCount ∧
      (skipQueueItem s idv now).failedCount = s.failedCount) ∧
    ((retryQueueItem s idv store now).completedCount = s.completedCount ∧
      (retryQueueItem s idv store now).failedCount = s.failedCount) ∧
    ((startQueue s now).completedCount = s.completedCount ∧
      (startQueue s now).failedCount = s.failedCount) ∧
    ((pauseQueue s).completedCount = s.completedCount ∧
      (pauseQueue s).failedCount = s.failedCount) ∧
    ((resumeQueue s).completedCount = s.completedCount ∧
      (resumeQueue s).failedCount = s.failedCount) ∧
    ((cancelQueue s).completedCount = s.completedCount ∧
      (cancelQueue s).failedCount = s.failedCount) ∧
    ((setQueueDelay s ms).completedCount = s.completedCount ∧
      (setQueueDelay s ms).failedCount = s.failedCount) ∧
    ((updateQueueItemConfig s pc).1.completedCount = s.completedCount ∧
      (updateQueueItemConfig s pc).1.failedCount = s.failedCount) ∧
    (s.completedCount ≤
        (processQueueIter s gen t1 t2 fn).state.completedCount ∧
      s.failedCount ≤ (processQueueIter s gen t1 t2 fn).state.failedCount) ∧
    (clearQueue s false).completedCount = s.completedCount ∧
    (clearQueue s false).failedCount = s.failedCount ∧
    (s.items ≠ [] →
      (clearQueue s true).completedCount = 0 ∧
      (clearQueue s true).failedCount = 0) := by
  refine ⟨⟨rfl, rfl⟩, ?_, ?_, ?_, startQueue_counters s now, ?_, ?_,
    ⟨rfl, rfl⟩, ⟨rfl, rfl⟩, ⟨rfl, rfl⟩, ?_, ?_, ?_, ?_⟩
  · unfold removeQueueItem
    repeat' split
    all_goals exact ⟨rfl, rfl⟩
  · unfold skipQueueItem
    repeat' split
    all_goals exact ⟨rfl, rfl⟩
  · unfold retryQueueItem
    repeat' split
    all_goals try exact ⟨rfl, rfl⟩
    all_goals dsimp only
    all_goals split
    all_goals first
      | exact ⟨rfl, rfl⟩
      | exact startQueue_counters _ _
  · unfold pauseQueue
    repeat' split
    all_goals exact ⟨rfl, rfl⟩
  · unfold resumeQueue
    repeat' split
    all_goals exact ⟨rfl, rfl⟩
  · unfold processQueueIter
    repeat' split
    all_goals dsimp only [StepResult.state]
    all_goals omega
  · unfold clearQueue
    repeat' split
    all_goals first
      | rfl
      | simp_all
  · unfold clearQueue
    repeat' split
    all_goals first
      | rfl
      | simp_all
  · intro hne
    have hlen : ¬(s.items.length = 0) := by
      simpa [List.length_eq_zero] using hne
    unfold clearQueue
    rw [if_neg hlen]
    rw [if_neg (by simp)]
    split <;> exact ⟨rfl, rfl⟩

/-- C5 amended witness: on an idle one-pending-job queue with nonzero
counters, remove keeps both counters, a successful processing step only
increases completedCount, and a confirmed clear resets both counters to
zero. -/
theorem counters_monotone_amended_witness :
    (removeQueueItem { witState [witItem 1 QueueStatus.pending] with
        completedCount := 2, failedCount := 1 } 1).completedCount =
      ({ witState [witItem 1 QueueStatus.pending] with
        completedCount := 2, failedCount := 1 } : QueueState).completedCount ∧
    ({ witState [witItem 1 QueueStatus.pending] with
        completedCount := 2, failedCount := 1 } : QueueState).completedCount ≤
      (processQueueIter { witState [witItem 1 QueueStatus.pending] with
        completedCount := 2, failedCount := 1 } (GenResult.ok "img") 10 20
        none).state.completedCount ∧
    (clearQueue { witState [witItem 1 QueueStatus.pending] with
        completedCount := 2, failedCount := 1 } true).completedCount = 0 ∧
    (clearQueue { witState [witItem 1 QueueStatus.pending] with
        completedCount := 2, failedCount := 1 } true).failedCount = 0 := by
  have h := counters_monotone_amended
    { witState [witItem 1 QueueStatus.pending] with
      completedCount := 2, failedCount := 1 } [] 0 [] [] [] "" 0 0 1 0 0
    (fun _ => none) (GenResult.ok "img") 10 20 none
  exact ⟨h.2.1.1, h.2.2.2.2.2.2.2.2.2.2.1.1,
    (h.2.2.2.2.2.2.2.2.2.2.2.2.2 (by decide)).1,
    (h.2.2.2.2.2.2.2.2.2.2.2.2.2 (by decide)).2⟩

end QueueEngine
